import Mathlib

/-!
Verification of the market-data request normalizer and derived-metrics
calculator of `glootie.py` (a single-file stock-analysis dashboard).

The shallow embedding below translates the script's pure logic into Lean:

* label normalization for timeframes (lines 183-194) and date ranges
  (lines 54-64);
* the gateway-facing functions `get_current_quote` (lines 167-178) and
  `get_historical_data` (lines 181-215), with the external Polygon client
  modelled as a function from the request record to an `Except` value
  (an exception or the returned list of aggregate bars);
* `get_option_greeks` (lines 105-129), with the external yfinance ticker
  modelled as a record of `Except`-valued capabilities and the calls the
  function performs recorded in an explicit trace;
* the Black-Scholes greeks themselves (delegated by the source to the
  external py_vollib library, hence modelled from the spec's description
  of the standard closed-form formulas);
* the input-validation gate of the "Analyze Stock" handler (lines 258-261);
* CSV serialization / parsing of the historical data frame (line 307,
  `to_csv(index=False)`), modelled at the level of rendered cells.

Numeric data carried by provider records is modelled with `ℚ` (the claims
about it are structural); the option-pricing formulas live over `ℝ`.
-/

namespace StockApp

/-! ## Provider data model -/

/-- One aggregate bar as returned by the market-data provider: the
open/high/low/close prices, the traded volume and the bar's timestamp
(milliseconds since the Unix epoch). -/
structure Agg where
  open_ : ℚ
  high : ℚ
  low : ℚ
  close : ℚ
  volume : ℚ
  timestamp : Int
  deriving DecidableEq, Repr

/-- A `pandas` datetime value produced by `pd.to_datetime(..., unit='ms')`:
an instant identified by its count of milliseconds since the Unix epoch. -/
structure PyDatetime where
  msSinceEpoch : Int
  deriving DecidableEq, Repr

/-- Embedding of `pd.to_datetime(t, unit='ms')`: interpret the integer `t`
as milliseconds since the Unix epoch. -/
def to_datetime_ms (t : Int) : PyDatetime := ⟨t⟩

/-- One row of the historical data frame: the provider bar's columns plus
the derived `date` column added on line 207 of the source. -/
structure Row where
  open_ : ℚ
  high : ℚ
  low : ℚ
  close : ℚ
  volume : ℚ
  timestamp : Int
  date : PyDatetime
  deriving DecidableEq, Repr

/-- Embedding of lines 206-207: `df = pd.DataFrame(data)` followed by
`df['date'] = pd.to_datetime(df['timestamp'], unit='ms')`, one row at a
time. -/
def addDate (a : Agg) : Row :=
  { open_ := a.open_, high := a.high, low := a.low, close := a.close,
    volume := a.volume, timestamp := a.timestamp,
    date := to_datetime_ms a.timestamp }

/-- A user-visible message emitted through Streamlit. -/
inductive Msg where
  | warning (text : String)
  | error (text : String)
  | info (text : String)
  deriving DecidableEq, Repr

/-! ## Request normalization -/

/-- Embedding of the timeframe branch of `get_historical_data`
(lines 183-194): the chain of equality checks mapping a timeframe label to
the `(multiplier, span)` pair sent to the provider.  The final `else`
branch is the source's implicit "1 Minute" default. -/
def normalize_timeframe (timeframe : String) : Nat × String :=
  if timeframe = "1 Day" then (1, "day")
  else if timeframe = "1 Hour" then (1, "hour")
  else if timeframe = "30 Minutes" then (30, "minute")
  else if timeframe = "15 Minutes" then (15, "minute")
  else if timeframe = "5 Minutes" then (5, "minute")
  else (1, "minute")

/-- The closed timeframe enumeration offered by the selectbox on
lines 48-51. -/
def timeframeLabels : List String :=
  ["1 Minute", "5 Minutes", "15 Minutes", "30 Minutes", "1 Hour", "1 Day"]

/-- Number of seconds in one day; `datetime.timedelta(days=n)` is exactly
`n` of these. -/
def seconds_per_day : Int := 86400

/-- Embedding of lines 54-64: `end_date = datetime.now()` and the chain of
equality checks computing `start_date = end_date - timedelta(days=...)`.
Instants are modelled as seconds.  Returns `(start_date, end_date)`; the
final `else` branch is the source's "1 Year" default. -/
def normalize_range (now : Int) (date_range : String) : Int × Int :=
  let end_date := now
  let start_date :=
    if date_range = "1 Day" then end_date - 1 * seconds_per_day
    else if date_range = "3 Days" then end_date - 3 * seconds_per_day
    else if date_range = "1 Month" then end_date - 30 * seconds_per_day
    else if date_range = "3 Months" then end_date - 90 * seconds_per_day
    else end_date - 365 * seconds_per_day
  (start_date, end_date)

/-- The closed date-range enumeration offered by the radio buttons on
lines 42-45. -/
def dateRangeLabels : List String :=
  ["1 Day", "3 Days", "1 Month", "3 Months", "1 Year"]

/-! ## Gateway-facing functions -/

/-- A calendar date, as held by a Python `datetime` value for formatting
purposes. -/
structure Date where
  year : Nat
  month : Nat
  day : Nat
  deriving DecidableEq, Repr

/-- Zero-pad a number to two digits, as `strftime`'s `%m` / `%d` do. -/
def pad2 (n : Nat) : String :=
  if n < 10 then "0" ++ toString n else toString n

/-- Zero-pad a number to four digits, as `strftime`'s `%Y` does. -/
def pad4 (n : Nat) : String :=
  if n < 10 then "000" ++ toString n
  else if n < 100 then "00" ++ toString n
  else if n < 1000 then "0" ++ toString n
  else toString n

/-- Embedding of `d.strftime("%Y-%m-%d")`: the ISO date string
`YYYY-MM-DD`. -/
def strftime_ymd (d : Date) : String :=
  pad4 d.year ++ "-" ++ pad2 d.month ++ "-" ++ pad2 d.day

/-- The argument record of a `client.list_aggs(...)` call
(lines 196-203). -/
structure AggsRequest where
  ticker : String
  multiplier : Nat
  timespan : String
  from_ : String
  to_ : String
  limit : Nat
  deriving DecidableEq, Repr

/-- Embedding of `get_current_quote` (lines 167-178).  The external call
`list(client.get_previous_close_agg(symbol))` is modelled by its outcome
`resp`: an exception message or the returned list.  A nonempty list yields
its first element; an empty list yields `none` with a warning; an
exception is caught and yields `none` with an error message (the source
also logs it). -/
def get_current_quote (resp : Except String (List Agg)) (symbol : String) :
    Option Agg × List Msg :=
  match resp with
  | .ok (a :: _) => (some a, [])
  | .ok [] =>
      (none, [.warning ("No current quote available for symbol: " ++ symbol)])
  | .error e =>
      (none, [.error ("Error fetching current quote: " ++ e)])

/-- Embedding of the argument list of the `client.list_aggs(...)` call on
lines 196-203: the multiplier and timespan come from the timeframe
normalization, the dates are formatted with `strftime("%Y-%m-%d")`, and
the row limit is the constant 50000. -/
def aggs_request (symbol : String) (from_date to_date : Date)
    (timeframe : String) : AggsRequest :=
  { ticker := symbol,
    multiplier := (normalize_timeframe timeframe).1,
    timespan := (normalize_timeframe timeframe).2,
    from_ := strftime_ymd from_date, to_ := strftime_ymd to_date,
    limit := 50000 }

/-- Embedding of `get_historical_data` (lines 181-215).  The external
Polygon client is the function `client` from the request record to an
exception message or a list of bars.  The returned triple records the
request that was sent, the `Option` result, and the messages shown.
A nonempty list becomes the data frame with the derived `date` column; an
empty list yields `none` with a warning; an exception is caught and yields
`none` with an error message (the source also logs it). -/
def get_historical_data (client : AggsRequest → Except String (List Agg))
    (symbol : String) (from_date to_date : Date) (timeframe : String) :
    AggsRequest × Option (List Row) × List Msg :=
  match client (aggs_request symbol from_date to_date timeframe) with
  | .ok (a :: rest) =>
      (aggs_request symbol from_date to_date timeframe,
        some ((a :: rest).map addDate), [])
  | .ok [] =>
      (aggs_request symbol from_date to_date timeframe, none,
        [.warning ("No historical data available for symbol: " ++ symbol)])
  | .error e =>
      (aggs_request symbol from_date to_date timeframe, none,
        [.error ("Error fetching historical data: " ++ e)])

/-! ## Black-Scholes greeks

The source delegates the greek formulas to the external `py_vollib`
library (`delta`, `gamma`, `theta`, `vega` with flag `'c'` for a call).
That library is not part of this repository, so the formulas are modelled
from the spec's description: "standard closed-form option-Greeks formulas
(Black-Scholes family) evaluated once for a call option". -/

/-- Density of the standard normal distribution. -/
noncomputable def norm_pdf (x : ℝ) : ℝ :=
  Real.exp (-(1 / 2) * x ^ 2) / Real.sqrt (2 * Real.pi)

/-- Cumulative distribution function of the standard normal
distribution. -/
noncomputable def norm_cdf (x : ℝ) : ℝ :=
  (∫ t in Set.Iic x, Real.exp (-(1 / 2) * t ^ 2)) / Real.sqrt (2 * Real.pi)

/-- Modelled from the spec: the Black-Scholes auxiliary quantity `d1` used
by the external py_vollib greeks. -/
noncomputable def d1 (S K T r sigma : ℝ) : ℝ :=
  (Real.log (S / K) + (r + sigma ^ 2 / 2) * T) / (sigma * Real.sqrt T)

/-- Modelled from the spec: the Black-Scholes auxiliary quantity `d2`. -/
noncomputable def d2 (S K T r sigma : ℝ) : ℝ :=
  d1 S K T r sigma - sigma * Real.sqrt T

/-- Modelled from the spec: py_vollib's analytical `delta(flag, S, K, T,
r, sigma)`, the closed-form Black-Scholes delta (`'c'` flags a call). -/
noncomputable def delta (flag : Char) (S K T r sigma : ℝ) : ℝ :=
  if flag = 'c' then norm_cdf (d1 S K T r sigma)
  else norm_cdf (d1 S K T r sigma) - 1

/-- Modelled from the spec: py_vollib's analytical `gamma(flag, S, K, T,
r, sigma)`, the closed-form Black-Scholes gamma (identical for calls and
puts). -/
noncomputable def gamma (flag : Char) (S K T r sigma : ℝ) : ℝ :=
  norm_pdf (d1 S K T r sigma) / (S * sigma * Real.sqrt T)

/-- Modelled from the spec: py_vollib's analytical `vega(flag, S, K, T, r,
sigma)`, the closed-form Black-Scholes vega (identical for calls and
puts). -/
noncomputable def vega (flag : Char) (S K T r sigma : ℝ) : ℝ :=
  S * norm_pdf (d1 S K T r sigma) * Real.sqrt T

/-- Modelled from the spec: py_vollib's analytical `theta(flag, S, K, T,
r, sigma)`, the closed-form Black-Scholes theta. -/
noncomputable def theta (flag : Char) (S K T r sigma : ℝ) : ℝ :=
  if flag = 'c' then
    -(S * norm_pdf (d1 S K T r sigma) * sigma) / (2 * Real.sqrt T) -
      r * K * Real.exp (-r * T) * norm_cdf (d2 S K T r sigma)
  else
    -(S * norm_pdf (d1 S K T r sigma) * sigma) / (2 * Real.sqrt T) +
      r * K * Real.exp (-r * T) * norm_cdf (-d2 S K T r sigma)

/-- The record of the four option greeks built on line 126. -/
structure Greeks where
  delta : ℝ
  gamma : ℝ
  theta : ℝ
  vega : ℝ

/-- Embedding of lines 116-126: the greeks of a call option computed from
the spot price `S`, the strike `K` and the implied volatility `sigma`,
with the fixed parameters `T = 30/365` and `r = 0.01`. -/
noncomputable def compute_greeks (S K sigma : ℝ) : Greeks :=
  { delta := delta 'c' S K (30 / 365) 0.01 sigma,
    gamma := gamma 'c' S K (30 / 365) 0.01 sigma,
    theta := theta 'c' S K (30 / 365) 0.01 sigma,
    vega := vega 'c' S K (30 / 365) 0.01 sigma }

/-! ## Option greeks fetcher -/

/-- One strike row of an option chain's `calls` frame; only the columns
the source reads are modelled. -/
structure CallRow where
  strike : ℝ
  impliedVolatility : ℝ

/-- The result of `ticker.option_chain(expiration)`; only the `calls`
frame is read. -/
structure OptionChain where
  calls : List CallRow

/-- The yfinance ticker as `get_option_greeks` uses it, each capability
modelled by its outcome: `options` is the tuple of expiration dates,
`history_close` the `Close` column of `ticker.history(period="1d")`, and
`option_chain` maps an expiration to its chain.  An `Except.error` value
stands for the capability raising an exception. -/
structure Ticker where
  options : Except String (List String)
  history_close : Except String (List ℝ)
  option_chain : String → Except String OptionChain

/-- A call performed against the yfinance ticker, for the trace of
`get_option_greeks`. -/
inductive TickerCall where
  | options
  | history (period : String)
  | optionChain (expiration : String)
  deriving DecidableEq, Repr

/-- Embedding of `get_option_greeks` (lines 105-129), paired with the
trace of ticker calls it performs.  If the expiration tuple is empty the
`if options:` body is skipped and the function falls through, returning
`None` without touching the price history or any option chain.  Any
exception, and any empty frame making `iloc` raise `IndexError`, is
caught by the enclosing `try` and yields `None` (the source also logs
it).  Otherwise the greeks are computed from the last close, and the
strike and implied volatility of the first `calls` row of the first
expiration's chain. -/
noncomputable def get_option_greeks (t : Ticker) :
    Option Greeks × List TickerCall :=
  match t.options with
  | .error _ => (none, [.options])
  | .ok [] => (none, [.options])
  | .ok (expiration :: _) =>
    match t.history_close with
    | .error _ => (none, [.options, .history "1d"])
    | .ok closes =>
      match closes.getLast? with
      | none => (none, [.options, .history "1d"])
      | some current_price =>
        match t.option_chain expiration with
        | .error _ =>
            (none, [.options, .history "1d", .optionChain expiration])
        | .ok chain =>
          match chain.calls with
          | [] => (none, [.options, .history "1d", .optionChain expiration])
          | call :: _ =>
              (some (compute_greeks current_price call.strike
                  call.impliedVolatility),
                [.options, .history "1d", .optionChain expiration])

/-- What the "Option Greeks" tab renders. -/
inductive TabOutput where
  | table (title : String) (g : Greeks) (note : String)
  | warning (text : String)

/-- Embedding of lines 315-321: the tab shows the greeks table with an
informational note when they are available and a benign warning
otherwise. -/
noncomputable def render_greeks_tab (g : Option Greeks) : TabOutput :=
  match g with
  | some greeks =>
      .table "Option Greeks" greeks
        "Note: These are simplified calculations and may not reflect real-time market values."
  | none => .warning "Option Greeks are not available for this stock."

/-! ## The "Analyze Stock" input gate -/

/-- The four data-fetching functions the analysis tabs may invoke. -/
inductive GatewayCall where
  | stockDetails
  | currentQuote
  | historicalData
  | optionGreeks
  deriving DecidableEq, Repr

/-- Outcome of pressing "Analyze Stock": which fetchers ran and whether the
handler stopped with an immediate validation error. -/
structure AnalyzeResult where
  calls : List GatewayCall
  immediateError : Option String
  deriving DecidableEq, Repr

/-- Embedding of Python's `str.strip()` with no argument: remove leading
and trailing whitespace. -/
def strip (s : String) : String :=
  ⟨List.reverse (List.dropWhile Char.isWhitespace
    (List.reverse (List.dropWhile Char.isWhitespace s.data)))⟩

/-- Embedding of the control flow of the "Analyze Stock" handler
(lines 258-321).  Line 259 checks
`if not polygon_api_key.strip() or not symbol.strip():` (Python's `strip`
of whitespace, with the empty string falsy) and, when it fires, shows an
error and runs nothing else; otherwise the four tabs invoke
`get_stock_details`, `get_current_quote`, `get_historical_data` and
`get_option_greeks` in order. -/
def analyze_stock (polygon_api_key symbol : String) : AnalyzeResult :=
  if strip polygon_api_key = "" || strip symbol = "" then
    { calls := [],
      immediateError :=
        some "Please add your Polygon API Key and enter a stock symbol." }
  else
    { calls := [.stockDetails, .currentQuote, .historicalData, .optionGreeks],
      immediateError := none }

/-! ## CSV serialization

Line 307 serializes the historical frame with
`historical_data.to_csv(index=False)`; the spec's round-trip property
re-parses that text.  Both directions are performed by the external
pandas library, so they are modelled at the level of rendered cells:
`to_csv` joins the header line and one line per row with newlines, each
line being its cells joined with commas; `read_csv` (modelled from the
spec: the source never re-parses, pandas' `read_csv` is the missing
code) splits lines, discards the trailing blank produced by the final
newline, and splits each line into cells. -/

/-- Join character lists with a separator, as a CSV writer does. -/
def joinWith (sep : Char) : List (List Char) → List Char
  | [] => []
  | [x] => x
  | x :: y :: rest => x ++ sep :: joinWith sep (y :: rest)

/-- Split a character list at every occurrence of the separator. -/
def splitOnChar (sep : Char) : List Char → List (List Char)
  | [] => [[]]
  | c :: cs =>
    match splitOnChar sep cs with
    | [] => [[c]]
    | g :: gs => if c = sep then [] :: g :: gs else (c :: g) :: gs

/-- A data frame as the CSV layer sees it: a header of column names and
the rows of rendered cells. -/
structure Frame where
  cols : List String
  rows : List (List String)
  deriving DecidableEq, Repr

/-- One CSV line: the cells joined with commas. -/
def csvLine (cells : List String) : List Char :=
  joinWith ',' (cells.map String.data)

/-- Embedding of `historical_data.to_csv(index=False)` (line 307): the
header line followed by one line per row, each terminated by a
newline. -/
def to_csv (df : Frame) : String :=
  ⟨((df.cols :: df.rows).map (fun r => csvLine r ++ ['\n'])).flatten⟩

/-- Drop the blank chunk a trailing newline leaves behind when
splitting. -/
def dropTrailingBlank (ls : List (List Char)) : List (List Char) :=
  if ls.getLast? = some [] then ls.dropLast else ls

/-- Modelled from the spec: pandas' `read_csv` applied to the downloaded
text, at the cell level — split into lines, drop the trailing blank
line, split each line into cells, and read the first line as the
header. -/
def read_csv (s : String) : Frame :=
  match (dropTrailingBlank (splitOnChar '\n' s.data)).map
      (fun l => (splitOnChar ',' l).map String.mk) with
  | [] => ⟨[], []⟩
  | h :: rs => ⟨h, rs⟩

/-- A rendered cell that needs no quoting: it contains neither a comma
nor a newline. -/
def CsvSafe (s : String) : Prop := ',' ∉ s.data ∧ '\n' ∉ s.data

instance (s : String) : Decidable (CsvSafe s) := by
  unfold CsvSafe
  infer_instance

/-- The historical series rendered as the data frame the CSV download
serializes: the same column set as the internal series (the bar columns
plus the derived `date`), one row per bar, with the numeric cell
rendering abstracted by the given functions. -/
def frameOfSeries (renderQ : ℚ → String) (renderZ : Int → String)
    (renderD : PyDatetime → String) (rows : List Row) : Frame :=
  { cols := ["open", "high", "low", "close", "volume", "timestamp", "date"],
    rows := rows.map (fun r =>
      [renderQ r.open_, renderQ r.high, renderQ r.low, renderQ r.close,
        renderQ r.volume, renderZ r.timestamp, renderD r.date]) }

end StockApp

namespace StockApp

/-! ## Helper lemmas -/

lemma gauss_integrable :
    MeasureTheory.Integrable (fun t : ℝ => Real.exp (-(1 / 2) * t ^ 2)) :=
  integrable_exp_neg_mul_sq (by norm_num)

lemma gauss_total :
    (∫ t : ℝ, Real.exp (-(1 / 2) * t ^ 2)) = Real.sqrt (2 * Real.pi) := by
  rw [integral_gaussian]
  congr 1
  rw [div_div_eq_mul_div, div_one]
  ring

lemma gauss_Iic_pos (x : ℝ) :
    0 < ∫ t in Set.Iic x, Real.exp (-(1 / 2) * t ^ 2) := by
  rw [MeasureTheory.setIntegral_pos_iff_support_of_nonneg_ae]
  · have hs : Function.support (fun t : ℝ => Real.exp (-(1 / 2) * t ^ 2)) = Set.univ := by
      ext t
      simp [Function.mem_support, Real.exp_ne_zero]
    rw [hs, Set.univ_inter, Real.volume_Iic]
    exact ENNReal.zero_lt_top
  · filter_upwards with t
    exact (Real.exp_pos _).le
  · exact gauss_integrable.integrableOn

lemma gauss_Ioi_pos (x : ℝ) :
    0 < ∫ t in Set.Ioi x, Real.exp (-(1 / 2) * t ^ 2) := by
  rw [MeasureTheory.setIntegral_pos_iff_support_of_nonneg_ae]
  · have hs : Function.support (fun t : ℝ => Real.exp (-(1 / 2) * t ^ 2)) = Set.univ := by
      ext t
      simp [Function.mem_support, Real.exp_ne_zero]
    rw [hs, Set.univ_inter, Real.volume_Ioi]
    exact ENNReal.zero_lt_top
  · filter_upwards with t
    exact (Real.exp_pos _).le
  · exact gauss_integrable.integrableOn

lemma gauss_Iic_lt_total (x : ℝ) :
    (∫ t in Set.Iic x, Real.exp (-(1 / 2) * t ^ 2)) < Real.sqrt (2 * Real.pi) := by
  have hsplit := intervalIntegral.integral_Iic_add_Ioi (b := x)
    (μ := MeasureTheory.volume)
    gauss_integrable.integrableOn gauss_integrable.integrableOn
  have h2 := gauss_Ioi_pos x
  have h3 := gauss_total
  linarith

lemma norm_cdf_pos (x : ℝ) : 0 < norm_cdf x :=
  div_pos (gauss_Iic_pos x) (Real.sqrt_pos.mpr (by positivity))

lemma norm_cdf_lt_one (x : ℝ) : norm_cdf x < 1 :=
  (div_lt_one (Real.sqrt_pos.mpr (by positivity))).mpr (gauss_Iic_lt_total x)

lemma norm_pdf_pos (x : ℝ) : 0 < norm_pdf x :=
  div_pos (Real.exp_pos _) (Real.sqrt_pos.mpr (by positivity))

lemma splitOnChar_ne_nil (sep : Char) (s : List Char) : splitOnChar sep s ≠ [] := by
  induction s with
  | nil => simp [splitOnChar]
  | cons c cs ih =>
    simp only [splitOnChar]
    cases h : splitOnChar sep cs with
    | nil => simp
    | cons g gs =>
      by_cases hc : c = sep <;> simp [hc]

lemma splitOnChar_no_sep (sep : Char) (s : List Char) (h : sep ∉ s) :
    splitOnChar sep s = [s] := by
  induction s with
  | nil => rfl
  | cons c cs ih =>
    simp only [List.mem_cons, not_or] at h
    obtain ⟨h1, h2⟩ := h
    simp only [splitOnChar, ih h2]
    rw [if_neg (Ne.symm h1)]

lemma splitOnChar_append (sep : Char) (x t : List Char) (hx : sep ∉ x) :
    splitOnChar sep (x ++ sep :: t) = x :: splitOnChar sep t := by
  induction x with
  | nil =>
    simp only [List.nil_append, splitOnChar]
    cases h : splitOnChar sep t with
    | nil => exact absurd h (splitOnChar_ne_nil sep t)
    | cons g gs => simp
  | cons a x' ih =>
    simp only [List.mem_cons, not_or] at hx
    obtain ⟨h1, h2⟩ := hx
    simp only [List.cons_append, splitOnChar,
      show splitOnChar sep (x'.append (sep :: t)) = x' :: splitOnChar sep t from ih h2]
    rw [if_neg (Ne.symm h1)]

lemma split_join (sep : Char) (parts : List (List Char)) (hne : parts ≠ [])
    (hfree : ∀ p ∈ parts, sep ∉ p) :
    splitOnChar sep (joinWith sep parts) = parts := by
  induction parts with
  | nil => exact absurd rfl hne
  | cons x rest ih =>
    cases rest with
    | nil =>
      simp only [joinWith]
      exact splitOnChar_no_sep sep x (hfree x (by simp))
    | cons y rest' =>
      simp only [joinWith]
      rw [splitOnChar_append sep x _ (hfree x (by simp))]
      rw [ih (by simp) (fun p hp => hfree p (List.mem_cons_of_mem _ hp))]

lemma not_mem_joinWith (sep c : Char) (parts : List (List Char))
    (hc : c ≠ sep) (hfree : ∀ p ∈ parts, c ∉ p) :
    c ∉ joinWith sep parts := by
  induction parts with
  | nil => simp [joinWith]
  | cons x rest ih =>
    cases rest with
    | nil => exact hfree x (by simp)
    | cons y rest' =>
      simp only [joinWith, List.mem_append, List.mem_cons, not_or]
      refine ⟨hfree x (by simp), hc, ?_⟩
      have := ih (fun p hp => hfree p (List.mem_cons_of_mem _ hp))
      simpa [joinWith] using this

lemma joinWith_cons (sep : Char) (x : List Char) (zs : List (List Char))
    (h : zs ≠ []) : joinWith sep (x :: zs) = x ++ sep :: joinWith sep zs := by
  cases zs with
  | nil => exact absurd rfl h
  | cons z zs' => rfl

lemma flatten_eq_joinWith (sep : Char) (lines : List (List Char)) :
    (lines.map (fun l => l ++ [sep])).flatten = joinWith sep (lines ++ [[]]) := by
  induction lines with
  | nil => rfl
  | cons x rest ih =>
    rw [List.map_cons, List.flatten_cons, ih, List.cons_append,
      joinWith_cons sep x (rest ++ [[]]) (by simp)]
    simp [List.append_assoc]

lemma dropTrailingBlank_concat (l : List (List Char)) :
    dropTrailingBlank (l ++ [[]]) = l := by
  unfold dropTrailingBlank
  rw [List.getLast?_concat]
  simp

lemma csvLine_no_newline (cells : List String) (h : ∀ c ∈ cells, CsvSafe c) :
    '\n' ∉ csvLine cells := by
  apply not_mem_joinWith _ _ _ (by decide)
  intro p hp
  simp only [List.mem_map] at hp
  obtain ⟨c, hc, rfl⟩ := hp
  exact (h c hc).2

lemma splitOnChar_csvLine (cells : List String) (hne : cells ≠ [])
    (h : ∀ c ∈ cells, CsvSafe c) :
    (splitOnChar ',' (csvLine cells)).map String.mk = cells := by
  unfold csvLine
  rw [split_join _ _ (by simpa using hne)]
  · rw [List.map_map]
    have hid : String.mk ∘ String.data = id := by
      funext s
      rfl
    rw [hid, List.map_id]
  · intro p hp
    simp only [List.mem_map] at hp
    obtain ⟨c, hc, rfl⟩ := hp
    exact (h c hc).1

lemma read_csv_to_csv (df : Frame)
    (hcols : df.cols ≠ []) (hcolsafe : ∀ c ∈ df.cols, CsvSafe c)
    (hrows : ∀ r ∈ df.rows, r ≠ [] ∧ ∀ c ∈ r, CsvSafe c) :
    read_csv (to_csv df) = df := by
  have hlines : ∀ l ∈ (df.cols :: df.rows).map csvLine, '\n' ∉ l := by
    intro l hl
    simp only [List.mem_map, List.mem_cons] at hl
    obtain ⟨r, hr | hr, rfl⟩ := hl
    · exact csvLine_no_newline _ (hr ▸ hcolsafe)
    · exact csvLine_no_newline _ (hrows r hr).2
  unfold read_csv to_csv
  simp only
  rw [show (((df.cols :: df.rows).map (fun r => csvLine r ++ ['\n'])).flatten : List Char)
      = joinWith '\n' ((df.cols :: df.rows).map csvLine ++ [[]]) by
    rw [← flatten_eq_joinWith, List.map_map]
    rfl]
  rw [split_join _ _ (by simp)]
  · rw [dropTrailingBlank_concat]
    rw [List.map_map]
    have hmap : ∀ r ∈ df.cols :: df.rows,
        ((fun l => (splitOnChar ',' l).map String.mk) ∘ csvLine) r = r := by
      intro r hr
      simp only [Function.comp]
      rcases List.mem_cons.mp hr with hr | hr
      · exact splitOnChar_csvLine _ (hr ▸ hcols) (hr ▸ hcolsafe)
      · exact splitOnChar_csvLine _ (hrows r hr).1 (hrows r hr).2
    rw [List.map_congr_left hmap, List.map_id']
  · intro p hp
    rcases List.mem_append.mp hp with hp | hp
    · exact hlines p hp
    · simp only [List.mem_singleton] at hp
      subst hp
      simp

/-- Claim C1: every label of the timeframe enumeration maps to its
documented `(multiplier, unit)` pair, and every string outside the
enumeration falls back to the last branch, `(1, "minute")`. -/
theorem normalize_timeframe_spec :
    normalize_timeframe "1 Day" = (1, "day") ∧
    normalize_timeframe "1 Hour" = (1, "hour") ∧
    normalize_timeframe "30 Minutes" = (30, "minute") ∧
    normalize_timeframe "15 Minutes" = (15, "minute") ∧
    normalize_timeframe "5 Minutes" = (5, "minute") ∧
    normalize_timeframe "1 Minute" = (1, "minute") ∧
    ∀ s : String, s ∉ timeframeLabels → normalize_timeframe s = (1, "minute") := by
  refine ⟨by decide, by decide, by decide, by decide, by decide, by decide, ?_⟩
  intro s hs
  simp only [timeframeLabels, List.mem_cons, List.not_mem_nil, or_false, not_or] at hs
  obtain ⟨h1, h5, h15, h30, hH, hD⟩ := hs
  simp only [normalize_timeframe, if_neg hD, if_neg hH, if_neg h30, if_neg h15, if_neg h5]

/-- Witness for C1: a concrete string outside the enumeration falls back to
`(1, "minute")`. -/
theorem normalize_timeframe_spec_witness :
    "2 Hours" ∉ timeframeLabels ∧ normalize_timeframe "2 Hours" = (1, "minute") :=
  ⟨by decide, normalize_timeframe_spec.2.2.2.2.2.2 "2 Hours" (by decide)⟩

/-- Claim C2: every label of the date-range enumeration yields
`end - start` equal to its documented day offset with `end = now`, and
every string outside the enumeration maps to the 365-day default branch. -/
theorem normalize_range_spec :
    ∀ now : Int,
    (∀ label : String, (normalize_range now label).2 = now) ∧
    (normalize_range now "1 Day").2 - (normalize_range now "1 Day").1 = 1 * seconds_per_day ∧
    (normalize_range now "3 Days").2 - (normalize_range now "3 Days").1 = 3 * seconds_per_day ∧
    (normalize_range now "1 Month").2 - (normalize_range now "1 Month").1 = 30 * seconds_per_day ∧
    (normalize_range now "3 Months").2 - (normalize_range now "3 Months").1 = 90 * seconds_per_day ∧
    (normalize_range now "1 Year").2 - (normalize_range now "1 Year").1 = 365 * seconds_per_day ∧
    ∀ s : String, s ∉ dateRangeLabels →
      (normalize_range now s).2 - (normalize_range now s).1 = 365 * seconds_per_day := by
  intro now
  refine ⟨fun label => rfl, by simp [normalize_range], by simp [normalize_range],
    by simp [normalize_range], by simp [normalize_range], by simp [normalize_range], ?_⟩
  intro s hs
  simp only [dateRangeLabels, List.mem_cons, List.not_mem_nil, or_false, not_or] at hs
  obtain ⟨h1, h3, hM, hQ, hY⟩ := hs
  simp only [normalize_range, if_neg h1, if_neg h3, if_neg hM, if_neg hQ]
  ring

/-- Witness for C2: at `now = 1000000` a concrete string outside the
enumeration maps to the 365-day default. -/
theorem normalize_range_spec_witness :
    "6 Months" ∉ dateRangeLabels ∧
    (normalize_range 1000000 "6 Months").2 - (normalize_range 1000000 "6 Months").1 =
      365 * seconds_per_day :=
  ⟨by decide, (normalize_range_spec 1000000).2.2.2.2.2.2 "6 Months" (by decide)⟩

/-- Claim C6: for every symbol, pair of dates and timeframe, the request
sent to the provider carries the ISO-formatted `from`/`to` dates, the
multiplier and unit produced by the timeframe normalization, and the
constant row limit 50000. -/
theorem get_historical_data_request_spec
    (client : AggsRequest → Except String (List Agg))
    (symbol : String) (from_date to_date : Date) (timeframe : String) :
    (get_historical_data client symbol from_date to_date timeframe).1 =
      { ticker := symbol,
        multiplier := (normalize_timeframe timeframe).1,
        timespan := (normalize_timeframe timeframe).2,
        from_ := strftime_ymd from_date,
        to_ := strftime_ymd to_date,
        limit := 50000 } := by
  unfold get_historical_data
  split <;> rfl

/-- Claim C4: when the provider raises an exception or returns an empty
result, `get_current_quote` and `get_historical_data` return `none`
together with a user-visible warning or error message; neither function
re-raises (their embeddings are total functions into `Option`). -/
theorem no_data_yields_none_spec
    (symbol e : String) (client : AggsRequest → Except String (List Agg))
    (from_date to_date : Date) (timeframe : String) :
    get_current_quote (.error e) symbol =
      (none, [.error ("Error fetching current quote: " ++ e)]) ∧
    get_current_quote (.ok []) symbol =
      (none, [.warning ("No current quote available for symbol: " ++ symbol)]) ∧
    (client (get_historical_data client symbol from_date to_date timeframe).1 = .error e →
      (get_historical_data client symbol from_date to_date timeframe).2 =
        (none, [.error ("Error fetching historical data: " ++ e)])) ∧
    (client (get_historical_data client symbol from_date to_date timeframe).1 = .ok [] →
      (get_historical_data client symbol from_date to_date timeframe).2 =
        (none, [.warning ("No historical data available for symbol: " ++ symbol)])) := by
  refine ⟨rfl, rfl, ?_, ?_⟩ <;>
  · intro h
    unfold get_historical_data at h ⊢
    split at h <;> simp_all

/-- Witness for C4: a client that always raises, and one that always
returns an empty list, at concrete inputs. -/
theorem no_data_yields_none_spec_witness :
    ((fun _ : AggsRequest => (Except.error "boom" : Except String (List Agg)))
        (get_historical_data (fun _ => .error "boom") "AAPL" ⟨2024, 1, 1⟩ ⟨2024, 2, 1⟩ "1 Day").1 =
      .error "boom" →
      (get_historical_data (fun _ => .error "boom") "AAPL" ⟨2024, 1, 1⟩ ⟨2024, 2, 1⟩ "1 Day").2 =
        (none, [.error ("Error fetching historical data: " ++ "boom")])) ∧
    (get_historical_data (fun _ => .error "boom") "AAPL" ⟨2024, 1, 1⟩ ⟨2024, 2, 1⟩ "1 Day").2 =
      (none, [.error ("Error fetching historical data: " ++ "boom")]) ∧
    (get_historical_data (fun _ => .ok []) "AAPL" ⟨2024, 1, 1⟩ ⟨2024, 2, 1⟩ "1 Day").2 =
      (none, [.warning ("No historical data available for symbol: " ++ "AAPL")]) :=
  ⟨(no_data_yields_none_spec "AAPL" "boom" (fun _ => .error "boom")
      ⟨2024, 1, 1⟩ ⟨2024, 2, 1⟩ "1 Day").2.2.1,
   (no_data_yields_none_spec "AAPL" "boom" (fun _ => .error "boom")
      ⟨2024, 1, 1⟩ ⟨2024, 2, 1⟩ "1 Day").2.2.1 rfl,
   (no_data_yields_none_spec "AAPL" "boom" (fun _ => .ok [])
      ⟨2024, 1, 1⟩ ⟨2024, 2, 1⟩ "1 Day").2.2.2 rfl⟩

/-- Claim C9: whenever `get_historical_data` returns a series, the series
is nonempty and every row's `date` field is its `timestamp` interpreted as
milliseconds since the Unix epoch. -/
theorem get_historical_data_rows_spec
    (client : AggsRequest → Except String (List Agg))
    (symbol : String) (from_date to_date : Date) (timeframe : String)
    (rows : List Row)
    (h : (get_historical_data client symbol from_date to_date timeframe).2.1 = some rows) :
    rows ≠ [] ∧ ∀ r ∈ rows, r.date = to_datetime_ms r.timestamp := by
  unfold get_historical_data at h
  split at h
  case _ a rest heq =>
    simp only [Option.some.injEq] at h
    subst h
    refine ⟨by simp, ?_⟩
    intro r hr
    simp only [List.mem_map] at hr
    obtain ⟨x, _, rfl⟩ := hr
    rfl
  case _ => simp at h
  case _ => simp at h

/-- Claim C5: when the API key or the symbol is empty after stripping
whitespace, the handler surfaces an immediate error message and invokes
none of the four data fetchers. -/
theorem analyze_stock_missing_input_spec (polygon_api_key symbol : String)
    (h : strip polygon_api_key = "" ∨ strip symbol = "") :
    analyze_stock polygon_api_key symbol =
      { calls := [],
        immediateError :=
          some "Please add your Polygon API Key and enter a stock symbol." } := by
  unfold analyze_stock
  rcases h with h | h <;> simp [h]

/-- Witness for C5: a whitespace-only API key with a nonempty symbol. -/
theorem analyze_stock_missing_input_spec_witness :
    strip "  " = "" ∧
    analyze_stock "  " "AAPL" =
      { calls := [],
        immediateError :=
          some "Please add your Polygon API Key and enter a stock symbol." } :=
  ⟨by decide, analyze_stock_missing_input_spec "  " "AAPL" (Or.inl (by decide))⟩

/-- Claim C3: whenever the option chain machinery succeeds and is
nonempty, `get_option_greeks` returns the four greeks of a call option
taken as the first strike row of the first listed expiration's chain,
always computed with the fixed parameters `T = 30/365` and `r = 0.01`. -/
theorem get_option_greeks_params_spec (t : Ticker) (expiration : String)
    (es : List String) (closes : List ℝ) (S : ℝ) (chain : OptionChain)
    (call : CallRow) (cs : List CallRow)
    (hopts : t.options = .ok (expiration :: es))
    (hhist : t.history_close = .ok closes)
    (hlast : closes.getLast? = some S)
    (hchain : t.option_chain expiration = .ok chain)
    (hcalls : chain.calls = call :: cs) :
    (get_option_greeks t).1 =
      some
        { delta := delta 'c' S call.strike (30 / 365) 0.01 call.impliedVolatility,
          gamma := gamma 'c' S call.strike (30 / 365) 0.01 call.impliedVolatility,
          theta := theta 'c' S call.strike (30 / 365) 0.01 call.impliedVolatility,
          vega := vega 'c' S call.strike (30 / 365) 0.01 call.impliedVolatility } := by
  unfold get_option_greeks
  simp only [hopts, hhist, hlast, hchain, hcalls, compute_greeks]

/-- Witness for C3: a concrete ticker with one expiration and one call
row at strike 100 and implied volatility 0.2, with last close 100. -/
theorem get_option_greeks_params_spec_witness :
    (get_option_greeks
        ⟨.ok ["2024-01-19"], .ok [(100 : ℝ)], fun _ => .ok ⟨[⟨100, 0.2⟩]⟩⟩).1 =
      some
        { delta := delta 'c' 100 (100 : ℝ) (30 / 365) 0.01 0.2,
          gamma := gamma 'c' 100 (100 : ℝ) (30 / 365) 0.01 0.2,
          theta := theta 'c' 100 (100 : ℝ) (30 / 365) 0.01 0.2,
          vega := vega 'c' 100 (100 : ℝ) (30 / 365) 0.01 0.2 } :=
  get_option_greeks_params_spec
    ⟨.ok ["2024-01-19"], .ok [(100 : ℝ)], fun _ => .ok ⟨[⟨100, 0.2⟩]⟩⟩
    "2024-01-19" [] [(100 : ℝ)] 100 ⟨[⟨100, 0.2⟩]⟩ ⟨100, 0.2⟩ []
    rfl rfl rfl rfl rfl

/-- Claim C10: when the provider returns an empty list of option
expirations, `get_option_greeks` returns `none` without requesting the
price history or any option chain, and the tab renders the benign
"not available" notice rather than an error. -/
theorem get_option_greeks_empty_options_spec (t : Ticker)
    (h : t.options = .ok []) :
    (get_option_greeks t).1 = none ∧
    (∀ p, TickerCall.history p ∉ (get_option_greeks t).2) ∧
    (∀ e, TickerCall.optionChain e ∉ (get_option_greeks t).2) ∧
    render_greeks_tab (get_option_greeks t).1 =
      .warning "Option Greeks are not available for this stock." := by
  unfold get_option_greeks
  rw [h]
  refine ⟨rfl, ?_, ?_, rfl⟩ <;> intro x <;> simp

/-- Witness for C10: a concrete ticker with no option expirations. -/
theorem get_option_greeks_empty_options_spec_witness :
    (get_option_greeks ⟨.ok [], .ok [(100 : ℝ)], fun _ => .ok ⟨[]⟩⟩).1 = none ∧
    TickerCall.history "1d" ∉
      (get_option_greeks ⟨.ok [], .ok [(100 : ℝ)], fun _ => .ok ⟨[]⟩⟩).2 ∧
    TickerCall.optionChain "2024-01-19" ∉
      (get_option_greeks ⟨.ok [], .ok [(100 : ℝ)], fun _ => .ok ⟨[]⟩⟩).2 ∧
    render_greeks_tab
        (get_option_greeks ⟨.ok [], .ok [(100 : ℝ)], fun _ => .ok ⟨[]⟩⟩).1 =
      .warning "Option Greeks are not available for this stock." :=
  ⟨(get_option_greeks_empty_options_spec _ rfl).1,
   (get_option_greeks_empty_options_spec
      ⟨.ok [], .ok [(100 : ℝ)], fun _ => .ok ⟨[]⟩⟩ rfl).2.1 "1d",
   (get_option_greeks_empty_options_spec
      ⟨.ok [], .ok [(100 : ℝ)], fun _ => .ok ⟨[]⟩⟩ rfl).2.2.1 "2024-01-19",
   (get_option_greeks_empty_options_spec
      ⟨.ok [], .ok [(100 : ℝ)], fun _ => .ok ⟨[]⟩⟩ rfl).2.2.2⟩

/-- Claim C7: serializing a historical series to CSV without the index,
with the same column set as the internal series, and re-parsing the CSV
yields the same rows — the same rendered open, high, low, close and
volume cells per timestamp — in the same order, provided the rendered
cells need no CSV quoting. -/
theorem csv_roundtrip_spec (renderQ : ℚ → String) (renderZ : Int → String)
    (renderD : PyDatetime → String) (bars : List Row)
    (hq : ∀ q, CsvSafe (renderQ q)) (hz : ∀ n, CsvSafe (renderZ n))
    (hd : ∀ d, CsvSafe (renderD d)) :
    read_csv (to_csv (frameOfSeries renderQ renderZ renderD bars)) =
      frameOfSeries renderQ renderZ renderD bars := by
  apply read_csv_to_csv
  · simp [frameOfSeries]
  · intro c hc
    simp only [frameOfSeries, List.mem_cons, List.not_mem_nil, or_false] at hc
    rcases hc with rfl | rfl | rfl | rfl | rfl | rfl | rfl <;> decide
  · intro r hr
    simp only [frameOfSeries, List.mem_map] at hr
    obtain ⟨b, _, rfl⟩ := hr
    refine ⟨by simp, ?_⟩
    intro c hc
    simp only [List.mem_cons, List.not_mem_nil, or_false] at hc
    rcases hc with rfl | rfl | rfl | rfl | rfl | rfl | rfl
    · exact hq _
    · exact hq _
    · exact hq _
    · exact hq _
    · exact hq _
    · exact hz _
    · exact hd _

/-- Witness for C7: one concrete bar with constant cell renderers. -/
theorem csv_roundtrip_spec_witness :
    read_csv (to_csv (frameOfSeries (fun _ => "1") (fun _ => "2") (fun _ => "3")
        [⟨1, 2, 3, 4, 5, 6, ⟨6⟩⟩])) =
      frameOfSeries (fun _ => "1") (fun _ => "2") (fun _ => "3")
        [⟨1, 2, 3, 4, 5, 6, ⟨6⟩⟩] :=
  csv_roundtrip_spec (fun _ => "1") (fun _ => "2") (fun _ => "3")
    [⟨1, 2, 3, 4, 5, 6, ⟨6⟩⟩]
    (fun _ => (by decide : CsvSafe "1")) (fun _ => (by decide : CsvSafe "2"))
    (fun _ => (by decide : CsvSafe "3"))

/-- Claim C8: the greeks computation at spot 100, strike 100 and implied
volatility 0.2 (with the fixed `T = 30/365` and `r = 0.01`) is
sign-correct for a call: delta strictly between 0 and 1, gamma strictly
positive, vega strictly positive. -/
theorem compute_greeks_sign_spec :
    0 < (compute_greeks 100 100 0.2).delta ∧
    (compute_greeks 100 100 0.2).delta < 1 ∧
    0 < (compute_greeks 100 100 0.2).gamma ∧
    0 < (compute_greeks 100 100 0.2).vega := by
  unfold compute_greeks delta gamma vega
  simp only [if_pos rfl]
  refine ⟨norm_cdf_pos _, norm_cdf_lt_one _, ?_, ?_⟩
  · apply div_pos (norm_pdf_pos _)
    have h1 : (0 : ℝ) < Real.sqrt (30 / 365) := Real.sqrt_pos.mpr (by norm_num)
    have h2 : (0 : ℝ) < (100 : ℝ) * 0.2 := by norm_num
    calc (0 : ℝ) < 100 * 0.2 * Real.sqrt (30 / 365) := mul_pos h2 h1
    _ = 100 * 0.2 * Real.sqrt (30 / 365) := rfl
  · have h1 : (0 : ℝ) < Real.sqrt (30 / 365) := Real.sqrt_pos.mpr (by norm_num)
    have h2 : (0 : ℝ) < (100 : ℝ) * norm_pdf (d1 100 100 (30 / 365) 0.01 0.2) :=
      mul_pos (by norm_num) (norm_pdf_pos _)
    exact mul_pos h2 h1

/-- Witness for C9: a client returning one concrete bar. -/
theorem get_historical_data_rows_spec_witness :
    (get_historical_data (fun _ => .ok [⟨1, 2, 3, 4, 5, 1700000000000⟩])
        "AAPL" ⟨2024, 1, 1⟩ ⟨2024, 2, 1⟩ "1 Day").2.1 =
      some [⟨1, 2, 3, 4, 5, 1700000000000, ⟨1700000000000⟩⟩] ∧
    [(⟨1, 2, 3, 4, 5, 1700000000000, ⟨1700000000000⟩⟩ : Row)] ≠ [] ∧
    ∀ r ∈ [(⟨1, 2, 3, 4, 5, 1700000000000, ⟨1700000000000⟩⟩ : Row)],
      r.date = to_datetime_ms r.timestamp :=
  ⟨rfl,
   get_historical_data_rows_spec (fun _ => .ok [⟨1, 2, 3, 4, 5, 1700000000000⟩])
     "AAPL" ⟨2024, 1, 1⟩ ⟨2024, 2, 1⟩ "1 Day"
     [⟨1, 2, 3, 4, 5, 1700000000000, ⟨1700000000000⟩⟩] rfl⟩

end StockApp
